import Mathlib

/-!
Verification development for the midi-ndn session / flow-control / liveness
core.  The consumer side (class `PlaybackModule`) keeps a per-remote
`MIDIControlBlock` in `m_lookup`; the producer side (class `Controller`)
keeps a pair of backlog queues, a connection flag and a heartbeat counter.
Every definition below is a direct shallow embedding of the corresponding
C++ function; C++ `int` is modelled by `Int`, `std::map` by a partial map
`String → Option MIDIControlBlock`, `std::deque` by `List` with the front
of the deque at the head of the list, and payload bytes by `List Int`.
-/

namespace MidiNdn

/-- Control block kept per remote peer by the consumer (`struct
MIDIControlBlock`): window edges `minSeqNo`, `maxSeqNo` and the inactivity
counter `inactiveTime`. -/
structure MIDIControlBlock where
  minSeqNo : Int
  maxSeqNo : Int
  inactiveTime : Int
deriving DecidableEq, Repr

/-- Consumer session table `m_lookup : std::map<std::string, MIDIControlBlock>`,
modelled as a partial map from remote names to control blocks. -/
abbrev Table : Type := String → Option MIDIControlBlock

/-- Map update `m_lookup[r] = v` (insert or overwrite). -/
def tset (tbl : Table) (r : String) (v : MIDIControlBlock) : Table :=
  fun k => if k = r then some v else tbl k

/-- Map removal `m_lookup.erase(r)`. -/
def terase (tbl : Table) (r : String) : Table :=
  fun k => if k = r then none else tbl k

/-- `#define PREWARM_AMOUNT 5`. -/
def PREWARM_AMOUNT : Nat := 5

/-- `#define MAX_INACTIVE_TIME 5`. -/
def MAX_INACTIVE_TIME : Int := 5

/-- `#define MAX_HEARTBEAT_PROBE 3`. -/
def MAX_HEARTBEAT_PROBE : Int := 3

/-- `PlaybackModule::requestNext`: if the remote is unknown the call is
dropped; otherwise one interest for sequence number `maxSeqNo` is expressed
and `maxSeqNo` is incremented.  Returns the new table and the sequence
number requested (if any). -/
def requestNext (tbl : Table) (r : String) : Table × Option Int :=
  match tbl r with
  | none => (tbl, none)
  | some cb => (tset tbl r { cb with maxSeqNo := cb.maxSeqNo + 1 }, some cb.maxSeqNo)

/-- A `for`-loop of `n` calls to `requestNext`, collecting the sequence
numbers actually requested. -/
def requestLoop (r : String) : Nat → Table → Table × List Int
  | 0, tbl => (tbl, [])
  | n + 1, tbl =>
    let p := requestNext tbl r
    let rest := requestLoop r n p.1
    (rest.1, p.2.toList ++ rest.2)

/-- The `j`-th 3-byte unit of a batched payload (`buffer[i+j*3]` for
`i = 0,1,2`). -/
def unitAt (buffer : List Int) (j : Nat) : List Int :=
  (buffer.drop (3 * j)).take 3

/-- The shutdown test `buffer[0] == 0 && buffer[1] == 0 && buffer[2] == 0`.
The loop only evaluates it when the payload holds at least one full 3-byte
unit, so the out-of-range default (chosen nonzero) is never consulted. -/
def sentinelHit (buffer : List Int) : Bool :=
  buffer.getD 0 1 == 0 && buffer.getD 1 1 == 0 && buffer.getD 2 1 == 0

/-- The playback loop of `PlaybackModule::onData`: for each of the `n`
units starting at index `j`, copy the unit into `message`, send it to the
MIDI output, and stop with the erase flag set when the first three payload
bytes are all zero.  Returns the units delivered and whether the sentinel
branch (erase + early return) was taken. -/
def deliverLoop (buffer : List Int) : Nat → Nat → List (List Int) × Bool
  | _, 0 => ([], false)
  | j, n + 1 =>
    let d := unitAt buffer j
    if sentinelHit buffer then ([d], true)
    else
      let rest := deliverLoop buffer (j + 1) n
      (d :: rest.1, rest.2)

/-- Outcome of one `PlaybackModule::onData` callback: the table afterwards,
the 3-byte units sent to the MIDI output, and the sequence numbers of the
interests expressed. -/
structure OnDataResult where
  table : Table
  delivered : List (List Int)
  requests : List Int

/-- `PlaybackModule::onData`.  `isHeartbeatName` is whether the data name's
last component is the literal `heartbeat` (early return).  `seqNo` is the
sequence number from the name, `payload` the content bytes. -/
def onData (tbl : Table) (isHeartbeatName : Bool) (remoteName : String)
    (seqNo : Int) (payload : List Int) : OnDataResult :=
  if isHeartbeatName then ⟨tbl, [], []⟩ else
  match tbl remoteName with
  | none => ⟨tbl, [], []⟩
  | some cb =>
    if cb.minSeqNo > seqNo then ⟨tbl, [], []⟩
    else if cb.maxSeqNo < seqNo then ⟨tbl, [], []⟩
    else
      let diff : Int := seqNo - cb.minSeqNo + 1
      let tbl1 := tset tbl remoteName { cb with minSeqNo := cb.minSeqNo + diff }
      let res := deliverLoop payload 0 (payload.length / 3)
      if res.2 then ⟨terase tbl1 remoteName, res.1, []⟩
      else
        let rq := requestLoop remoteName diff.toNat tbl1
        ⟨rq.1, res.1, rq.2⟩

/-- `PlaybackModule::onInterest`.  Only interests whose last name component
is `heartbeat` are processed (`lastIsHeartbeat`).  A known remote gets its
inactivity counter reset; an unknown remote is accepted with block
`{0,0}` (aggregate-initialised, so `inactiveTime = 0`) followed by
`PREWARM_AMOUNT` calls to `requestNext`.  Returns the new table and the
prewarm sequence numbers requested. -/
def onInterest (tbl : Table) (lastIsHeartbeat : Bool) (remoteName : String) :
    Table × List Int :=
  if !lastIsHeartbeat then (tbl, []) else
  match tbl remoteName with
  | some cb => (tset tbl remoteName { cb with inactiveTime := 0 }, [])
  | none => requestLoop remoteName PREWARM_AMOUNT (tset tbl remoteName ⟨0, 0, 0⟩)

/-- One iteration of `PlaybackModule::controlBlockMonitoring`: every block's
`inactiveTime` is incremented, and every block whose incremented counter
exceeds `MAX_INACTIVE_TIME` is erased. -/
def controlBlockTick (tbl : Table) : Table := fun k =>
  match tbl k with
  | none => none
  | some cb =>
    if cb.inactiveTime + 1 > MAX_INACTIVE_TIME then none
    else some { cb with inactiveTime := cb.inactiveTime + 1 }

/-- `n` consecutive monitor iterations. -/
def sweepN : Nat → Table → Table
  | 0, tbl => tbl
  | n + 1, tbl => sweepN n (controlBlockTick tbl)

/-- One consumer-side operation, for stating trace properties: a heartbeat
interest arriving (`accept`), a data callback (`response`), a standalone
`requestNext`, or one monitor iteration (`sweep`). -/
inductive Op where
  | accept (remoteName : String)
  | response (remoteName : String) (seqNo : Int) (payload : List Int)
  | request (remoteName : String)
  | sweep

/-- Effect of one operation on the session table. -/
def step (tbl : Table) : Op → Table
  | Op.accept r => (onInterest tbl true r).1
  | Op.response r s p => (onData tbl false r s p).table
  | Op.request r => (requestNext tbl r).1
  | Op.sweep => controlBlockTick tbl

/-- Effect of a sequence of operations on the session table. -/
def steps : Table → List Op → Table
  | tbl, [] => tbl
  | tbl, op :: rest => steps (step tbl op) rest

/-- Window well-formedness: every block in the table satisfies
`minSeqNo ≤ maxSeqNo`. -/
def WF (tbl : Table) : Prop :=
  ∀ r cb, tbl r = some cb → cb.minSeqNo ≤ cb.maxSeqNo

/-- Producer-side state of class `Controller`: connection flag `m_connGood`,
outbound backlog `m_inputQueue` (3-byte units), pending request backlog
`m_interestQueue` (interests modelled by their sequence numbers), the
`m_maxSeqNo` expected-sequence tracker, heartbeat counter `m_hbCount` and
`heartbeatNonce`. -/
structure ControllerState where
  connGood : Bool
  inputQueue : List (List Int)
  interestQueue : List Int
  maxSeqNo : Int
  hbCount : Int
  heartbeatNonce : Int
deriving DecidableEq, Repr

/-- `Controller::addInput(MIDIMessage)`: unconditional
`m_inputQueue.push_back(msg)`. -/
def addInput (st : ControllerState) (msg : List Int) : ControllerState :=
  { st with inputQueue := st.inputQueue ++ [msg] }

/-- `Controller::replyInterest` (the drain step): when not connected, both
queues are cleared; then, if both queues are non-empty, up to 10 outbound
units are popped into `midiBuf`, one pending interest name is popped, and
one data packet carrying the concatenated units is sent to that name.
Returns the new state and the emitted response (name, payload bytes), if
any. -/
def replyInterest (st0 : ControllerState) : ControllerState × Option (Int × List Int) :=
  let st := if st0.connGood then st0 else { st0 with inputQueue := [], interestQueue := [] }
  match st.interestQueue, st.inputQueue with
  | nm :: names, m :: ms =>
    ({ st with inputQueue := (m :: ms).drop 10, interestQueue := names },
      some (nm, ((m :: ms).take 10).flatten))
  | _, _ => (st, none)

/-- One iteration of the `Controller::sendHeartbeat` loop: increment
`m_hbCount`, send the probe (incrementing `heartbeatNonce`), then flip
`m_connGood` to `false` when `m_hbCount > MAX_HEARTBEAT_PROBE && m_connGood`.
Nothing else is touched. -/
def sendHeartbeatStep (st0 : ControllerState) : ControllerState :=
  let st := { st0 with hbCount := st0.hbCount + 1, heartbeatNonce := st0.heartbeatNonce + 1 }
  if MAX_HEARTBEAT_PROBE < st.hbCount ∧ st.connGood = true then
    { st with connGood := false }
  else st

/-- `Controller::onInterest`: drop when not connected; enqueue the interest
and bump `m_maxSeqNo` when `seqNo >= m_maxSeqNo`; otherwise drop as
out-of-order. -/
def ctrlOnInterest (st : ControllerState) (seqNo : Int) : ControllerState :=
  if st.connGood = false then st
  else if seqNo ≥ st.maxSeqNo then
    { st with interestQueue := st.interestQueue ++ [seqNo], maxSeqNo := seqNo + 1 }
  else st

/-- `Controller::onData`: only heartbeat-named data is processed; when
already connected it resets `m_hbCount`, otherwise it establishes the
connection and resets the queues and the sequence tracker. -/
def ctrlOnData (st : ControllerState) (lastIsHeartbeat : Bool) : ControllerState :=
  if !lastIsHeartbeat then st
  else if st.connGood then { st with hbCount := 0 }
  else { st with connGood := true, hbCount := 0, inputQueue := [],
                 interestQueue := [], maxSeqNo := 0 }

/-- Empty session table. -/
def tblEmpty : Table := fun _ => none

/-- Concrete table: one session for remote `a` with window `[0, 5)` and a
zero inactivity counter. -/
def tblA : Table := fun k => if k = "a" then some ⟨0, 5, 0⟩ else none

/-- Concrete table: one session for remote `a` with `minSeqNo = maxSeqNo = 0`. -/
def tblB : Table := fun k => if k = "a" then some ⟨0, 0, 0⟩ else none

/-- Concrete table: one session for remote `a` with window `[0, 5)` and
inactivity counter already at 3. -/
def tblC : Table := fun k => if k = "a" then some ⟨0, 5, 3⟩ else none

/-- Concrete controller state: connected, one queued outbound unit, one
pending interest, and a heartbeat counter about to cross the threshold. -/
def stHB : ControllerState := ⟨true, [[1, 2, 3]], [0], 1, 3, 0⟩

/-- Concrete controller state: disconnected with empty queues. -/
def stDC : ControllerState := ⟨false, [], [], 0, 0, 0⟩

/-- Concrete controller state: connected with two queued outbound units and
two pending interests. -/
def stOK : ControllerState := ⟨true, [[1, 2, 3], [4, 5, 6]], [7, 8], 9, 0, 0⟩

/-! Basic lemmas about the table operations. -/

theorem tset_same (tbl : Table) (r : String) (v : MIDIControlBlock) :
    tset tbl r v r = some v := by
  simp [tset]

theorem tset_other (tbl : Table) (r k : String) (v : MIDIControlBlock) (h : k ≠ r) :
    tset tbl r v k = tbl k := by
  simp [tset, h]

theorem tset_tset (tbl : Table) (r : String) (v w : MIDIControlBlock) :
    tset (tset tbl r v) r w = tset tbl r w := by
  funext k
  simp only [tset]
  split <;> rfl

theorem tset_self (tbl : Table) (r : String) (v : MIDIControlBlock)
    (h : tbl r = some v) : tset tbl r v = tbl := by
  funext k
  simp only [tset]
  split
  · rename_i hk; rw [hk, h]
  · rfl

theorem terase_same (tbl : Table) (r : String) : terase tbl r r = none := by
  simp [terase]

theorem terase_other (tbl : Table) (r k : String) (h : k ≠ r) :
    terase tbl r k = tbl k := by
  simp [terase, h]

theorem terase_tset (tbl : Table) (r : String) (v : MIDIControlBlock) :
    terase (tset tbl r v) r = terase tbl r := by
  funext k
  simp only [terase, tset]
  split <;> rfl

/-! Lemmas about `requestNext` and `requestLoop`. -/

theorem requestNext_present (tbl : Table) (r : String) (cb : MIDIControlBlock)
    (h : tbl r = some cb) :
    requestNext tbl r = (tset tbl r { cb with maxSeqNo := cb.maxSeqNo + 1 }, some cb.maxSeqNo) := by
  simp [requestNext, h]

theorem requestNext_absent (tbl : Table) (r : String) (h : tbl r = none) :
    requestNext tbl r = (tbl, none) := by
  simp [requestNext, h]

theorem requestLoop_spec (r : String) :
    ∀ (n : Nat) (tbl : Table) (cb : MIDIControlBlock), tbl r = some cb →
      requestLoop r n tbl =
        (tset tbl r { cb with maxSeqNo := cb.maxSeqNo + (n : Int) },
         (List.range n).map (fun (i : Nat) => cb.maxSeqNo + (i : Int))) := by
  intro n
  induction n with
  | zero =>
    intro tbl cb h
    simp only [requestLoop, Nat.cast_zero, add_zero, List.range_zero, List.map_nil]
    rw [tset_self tbl r cb h]
  | succ n ih =>
    intro tbl cb h
    simp only [requestLoop, requestNext_present tbl r cb h, Option.toList_some]
    rw [ih (tset tbl r { cb with maxSeqNo := cb.maxSeqNo + 1 })
        { cb with maxSeqNo := cb.maxSeqNo + 1 } (tset_same _ _ _)]
    rw [tset_tset]
    simp only [Prod.mk.injEq]
    refine ⟨?_, ?_⟩
    · push_cast
      ring_nf
    · rw [List.range_succ_eq_map, List.map_cons, List.map_map]
      simp only [Nat.cast_zero, add_zero, List.singleton_append, List.cons.injEq, true_and]
      apply List.map_congr_left
      intro i _
      simp only [Function.comp_apply, Nat.succ_eq_add_one]
      push_cast
      ring

/-! Lemmas about `sentinelHit` and `deliverLoop`. -/

theorem sentinelHit_iff (buffer : List Int) :
    sentinelHit buffer = true ↔ buffer.take 3 = [0, 0, 0] := by
  match buffer with
  | [] => simp [sentinelHit]
  | [a] => simp [sentinelHit]
  | [a, b] => simp [sentinelHit]
  | a :: b :: c :: rest =>
    simp [sentinelHit, List.getD, and_assoc]

theorem sentinelHit_eq_false (buffer : List Int) (h : buffer.take 3 ≠ [0, 0, 0]) :
    sentinelHit buffer = false := by
  rcases hb : sentinelHit buffer with _ | _
  · rfl
  · exact absurd ((sentinelHit_iff buffer).mp hb) h

theorem deliverLoop_no_sentinel (buffer : List Int) (h : sentinelHit buffer = false) :
    ∀ (n j : Nat),
      deliverLoop buffer j n = ((List.range n).map (fun i => unitAt buffer (j + i)), false) := by
  intro n
  induction n with
  | zero => intro j; simp [deliverLoop]
  | succ n ih =>
    intro j
    simp only [deliverLoop, h, Bool.false_eq_true, if_false, ih (j + 1)]
    rw [List.range_succ_eq_map, List.map_cons, List.map_map]
    simp only [Nat.add_zero, Prod.mk.injEq, List.cons.injEq, true_and, and_true]
    apply List.map_congr_left
    intro i _
    simp only [Function.comp_apply, Nat.succ_eq_add_one]
    congr 1
    omega

theorem deliverLoop_sentinel (buffer : List Int) (h : sentinelHit buffer = true)
    (j n : Nat) (hn : 0 < n) :
    deliverLoop buffer j n = ([unitAt buffer j], true) := by
  match n, hn with
  | n + 1, _ => simp [deliverLoop, h]

/-! Characterisation of `onData` on its three kinds of path: drop, sentinel
erase, and normal accept. -/

theorem onData_accept_eq (tbl : Table) (r : String) (cb : MIDIControlBlock) (seq : Int)
    (payload : List Int) (h : tbl r = some cb) (h1 : cb.minSeqNo ≤ seq)
    (h2 : seq ≤ cb.maxSeqNo) (hs : sentinelHit payload = false) :
    onData tbl false r seq payload =
      ⟨tset tbl r ⟨seq + 1, cb.maxSeqNo + (seq - cb.minSeqNo + 1), cb.inactiveTime⟩,
       (List.range (payload.length / 3)).map (fun j => unitAt payload j),
       (List.range (seq - cb.minSeqNo + 1).toNat).map
         (fun (i : Nat) => cb.maxSeqNo + (i : Int))⟩ := by
  have hd1 : ¬ (cb.minSeqNo > seq) := not_lt.mpr h1
  have hd2 : ¬ (cb.maxSeqNo < seq) := not_lt.mpr h2
  simp only [onData, Bool.false_eq_true, if_false, h, hd1, hd2,
    deliverLoop_no_sentinel payload hs]
  rw [requestLoop_spec r (seq - cb.minSeqNo + 1).toNat _
      { cb with minSeqNo := cb.minSeqNo + (seq - cb.minSeqNo + 1) } (tset_same _ _ _)]
  rw [tset_tset]
  have hblock :
      ({ cb with minSeqNo := cb.minSeqNo + (seq - cb.minSeqNo + 1),
                 maxSeqNo := cb.maxSeqNo + ((seq - cb.minSeqNo + 1).toNat : Int) }
        : MIDIControlBlock) =
      ⟨seq + 1, cb.maxSeqNo + (seq - cb.minSeqNo + 1), cb.inactiveTime⟩ := by
    have : ((seq - cb.minSeqNo + 1).toNat : Int) = seq - cb.minSeqNo + 1 := by omega
    rw [this]
    have : cb.minSeqNo + (seq - cb.minSeqNo + 1) = seq + 1 := by ring
    rw [this]
  rw [hblock]
  simp

theorem onData_sentinel_eq (tbl : Table) (r : String) (cb : MIDIControlBlock) (seq : Int)
    (payload : List Int) (h : tbl r = some cb) (h1 : cb.minSeqNo ≤ seq)
    (h2 : seq ≤ cb.maxSeqNo) (hs : sentinelHit payload = true) :
    onData tbl false r seq payload = ⟨terase tbl r, [unitAt payload 0], []⟩ := by
  have hd1 : ¬ (cb.minSeqNo > seq) := not_lt.mpr h1
  have hd2 : ¬ (cb.maxSeqNo < seq) := not_lt.mpr h2
  have hlen : 3 ≤ payload.length := by
    have htake := (sentinelHit_iff payload).mp hs
    have := congrArg List.length htake
    simp only [List.length_take, List.length_cons, List.length_nil] at this
    omega
  have hn : 0 < payload.length / 3 := by omega
  simp only [onData, Bool.false_eq_true, if_false, h, hd1, hd2,
    deliverLoop_sentinel payload hs 0 (payload.length / 3) hn]
  rw [terase_tset]
  simp

theorem onData_cases (tbl : Table) (hb : Bool) (r : String) (seq : Int) (payload : List Int) :
    (onData tbl hb r seq payload).table = tbl ∨
    ∃ cb, tbl r = some cb ∧ cb.minSeqNo ≤ seq ∧ seq ≤ cb.maxSeqNo ∧
      ((onData tbl hb r seq payload).table = terase tbl r ∨
       (onData tbl hb r seq payload).table =
         tset tbl r ⟨seq + 1, cb.maxSeqNo + ((seq - cb.minSeqNo + 1).toNat : Int),
                     cb.inactiveTime⟩) := by
  by_cases hhb : hb = true
  · left; simp [onData, hhb]
  · replace hhb : hb = false := by simpa using hhb
    subst hhb
    rcases htbl : tbl r with _ | cb
    · left; simp [onData, htbl]
    · by_cases g1 : cb.minSeqNo > seq
      · left; simp [onData, htbl, g1]
      · by_cases g2 : cb.maxSeqNo < seq
        · left; simp [onData, htbl, g1, g2]
        · right
          refine ⟨cb, rfl, not_lt.mp g1, not_lt.mp g2, ?_⟩
          by_cases hsent : sentinelHit payload = true
          · by_cases hn : 0 < payload.length / 3
            · left
              rw [onData_sentinel_eq tbl r cb seq payload htbl (not_lt.mp g1)
                  (not_lt.mp g2) hsent]
            · right
              have hn0 : payload.length / 3 = 0 := by omega
              simp only [onData, Bool.false_eq_true, if_false, htbl, g1, g2, hn0,
                deliverLoop]
              rw [requestLoop_spec r (seq - cb.minSeqNo + 1).toNat _
                  { cb with minSeqNo := cb.minSeqNo + (seq - cb.minSeqNo + 1) }
                  (tset_same _ _ _)]
              rw [tset_tset]
              have : cb.minSeqNo + (seq - cb.minSeqNo + 1) = seq + 1 := by ring
              simp [this]
          · right
            replace hsent : sentinelHit payload = false := by simpa using hsent
            rw [onData_accept_eq tbl r cb seq payload htbl (not_lt.mp g1)
                (not_lt.mp g2) hsent]
            have : ((seq - cb.minSeqNo + 1).toNat : Int) = seq - cb.minSeqNo + 1 := by
              omega
            rw [this]

/-! Characterisation of `onInterest` and the trace-level lemmas. -/

theorem onInterest_known (tbl : Table) (r : String) (cb : MIDIControlBlock)
    (h : tbl r = some cb) :
    onInterest tbl true r = (tset tbl r { cb with inactiveTime := 0 }, []) := by
  simp [onInterest, h]

theorem onInterest_new (tbl : Table) (r : String) (h : tbl r = none) :
    onInterest tbl true r = (tset tbl r ⟨0, 5, 0⟩, [0, 1, 2, 3, 4]) := by
  simp only [onInterest, h, Bool.not_true, Bool.false_eq_true, if_false]
  rw [requestLoop_spec r PREWARM_AMOUNT _ ⟨0, 0, 0⟩ (tset_same _ _ _)]
  rw [tset_tset]
  simp only [Prod.mk.injEq]
  constructor
  · norm_num [PREWARM_AMOUNT]
  · decide

theorem controlBlockTick_lookup (tbl : Table) (k : String) :
    controlBlockTick tbl k =
      match tbl k with
      | none => none
      | some cb =>
        if cb.inactiveTime + 1 > MAX_INACTIVE_TIME then none
        else some { cb with inactiveTime := cb.inactiveTime + 1 } := rfl

theorem step_WF (tbl : Table) (op : Op) (h : WF tbl) : WF (step tbl op) := by
  cases op with
  | accept r =>
    rcases htbl : tbl r with _ | cb
    · simp only [step, onInterest_new tbl r htbl]
      intro k cbk hk
      by_cases hkr : k = r
      · subst hkr
        rw [tset_same] at hk
        cases hk
        norm_num
      · rw [tset_other _ _ _ _ hkr] at hk
        exact h k cbk hk
    · simp only [step, onInterest_known tbl r cb htbl]
      intro k cbk hk
      by_cases hkr : k = r
      · subst hkr
        rw [tset_same] at hk
        cases hk
        exact h k cb htbl
      · rw [tset_other _ _ _ _ hkr] at hk
        exact h k cbk hk
  | response r s p =>
    rcases onData_cases tbl false r s p with heq | ⟨cb, hcb, h1, h2, herase | hset⟩
    · simpa [step, heq] using h
    · intro k cbk hk
      simp only [step, herase] at hk
      by_cases hkr : k = r
      · subst hkr; rw [terase_same] at hk; cases hk
      · rw [terase_other _ _ _ hkr] at hk
        exact h k cbk hk
    · intro k cbk hk
      simp only [step, hset] at hk
      by_cases hkr : k = r
      · subst hkr
        rw [tset_same] at hk
        cases hk
        have := h _ cb hcb
        simp only
        omega
      · rw [tset_other _ _ _ _ hkr] at hk
        exact h k cbk hk
  | request r =>
    rcases htbl : tbl r with _ | cb
    · simpa [step, requestNext_absent tbl r htbl] using h
    · simp only [step, requestNext_present tbl r cb htbl]
      intro k cbk hk
      by_cases hkr : k = r
      · subst hkr
        rw [tset_same] at hk
        cases hk
        have := h _ cb htbl
        simp only
        omega
      · rw [tset_other _ _ _ _ hkr] at hk
        exact h k cbk hk
  | sweep =>
    intro k cbk hk
    simp only [step, controlBlockTick] at hk
    split at hk
    · cases hk
    · rename_i cb htbl
      split at hk
      · cases hk
      · cases hk
        exact h k cb htbl

theorem step_minSeq_mono (tbl : Table) (op : Op) (r : String)
    (cb cb' : MIDIControlBlock) (h1 : tbl r = some cb) (h2 : step tbl op r = some cb') :
    cb.minSeqNo ≤ cb'.minSeqNo := by
  cases op with
  | accept r0 =>
    rcases htbl : tbl r0 with _ | cb0
    · simp only [step, onInterest_new tbl r0 htbl] at h2
      by_cases hkr : r = r0
      · subst hkr; rw [htbl] at h1; cases h1
      · rw [tset_other _ _ _ _ hkr] at h2
        rw [h1] at h2; cases h2; exact le_refl _
    · simp only [step, onInterest_known tbl r0 cb0 htbl] at h2
      by_cases hkr : r = r0
      · subst hkr
        rw [tset_same] at h2
        rw [htbl] at h1
        cases h1; cases h2
        exact le_refl _
      · rw [tset_other _ _ _ _ hkr] at h2
        rw [h1] at h2; cases h2; exact le_refl _
  | response r0 s p =>
    rcases onData_cases tbl false r0 s p with heq | ⟨cb0, hcb0, g1, g2, herase | hset⟩
    · simp only [step, heq] at h2
      rw [h1] at h2; cases h2; exact le_refl _
    · simp only [step, herase] at h2
      by_cases hkr : r = r0
      · subst hkr; rw [terase_same] at h2; cases h2
      · rw [terase_other _ _ _ hkr] at h2
        rw [h1] at h2; cases h2; exact le_refl _
    · simp only [step, hset] at h2
      by_cases hkr : r = r0
      · subst hkr
        rw [tset_same] at h2
        rw [hcb0] at h1
        cases h1; cases h2
        simp only
        omega
      · rw [tset_other _ _ _ _ hkr] at h2
        rw [h1] at h2; cases h2; exact le_refl _
  | request r0 =>
    rcases htbl : tbl r0 with _ | cb0
    · simp only [step, requestNext_absent tbl r0 htbl] at h2
      rw [h1] at h2; cases h2; exact le_refl _
    · simp only [step, requestNext_present tbl r0 cb0 htbl] at h2
      by_cases hkr : r = r0
      · subst hkr
        rw [tset_same] at h2
        rw [htbl] at h1
        cases h1; cases h2
        exact le_refl _
      · rw [tset_other _ _ _ _ hkr] at h2
        rw [h1] at h2; cases h2; exact le_refl _
  | sweep =>
    simp only [step, controlBlockTick] at h2
    split at h2
    · cases h2
    · rename_i cb0 htbl0
      rw [h1] at htbl0
      cases htbl0
      split at h2
      · cases h2
      · cases h2
        exact le_refl _

theorem steps_WF (ops : List Op) :
    ∀ tbl : Table, WF tbl → WF (steps tbl ops) := by
  induction ops with
  | nil => intro tbl h; exact h
  | cons op rest ih =>
    intro tbl h
    exact ih (step tbl op) (step_WF tbl op h)

/-! Lemmas about iterated monitor ticks. -/

theorem sweepN_absent (r : String) :
    ∀ (n : Nat) (tbl : Table), tbl r = none → sweepN n tbl r = none := by
  intro n
  induction n with
  | zero => intro tbl h; exact h
  | succ n ih =>
    intro tbl h
    apply ih
    simp [controlBlockTick, h]

theorem sweepN_lookup (r : String) :
    ∀ (n : Nat) (tbl : Table) (cb : MIDIControlBlock), tbl r = some cb →
      sweepN n tbl r = none ∨
      (sweepN n tbl r = some { cb with inactiveTime := cb.inactiveTime + (n : Int) } ∧
        (1 ≤ n → cb.inactiveTime + (n : Int) ≤ MAX_INACTIVE_TIME)) := by
  intro n
  induction n with
  | zero =>
    intro tbl cb h
    right
    refine ⟨?_, by omega⟩
    simpa using h
  | succ n ih =>
    intro tbl cb h
    by_cases hc : cb.inactiveTime + 1 > MAX_INACTIVE_TIME
    · left
      have htick : controlBlockTick tbl r = none := by
        simp [controlBlockTick, h, hc]
      exact sweepN_absent r n (controlBlockTick tbl) htick
    · have htick : controlBlockTick tbl r =
          some { cb with inactiveTime := cb.inactiveTime + 1 } := by
        simp [controlBlockTick, h, hc]
      rcases ih (controlBlockTick tbl) { cb with inactiveTime := cb.inactiveTime + 1 }
          htick with hn | ⟨hs, hb⟩
      · left; exact hn
      · right
        constructor
        · rw [show sweepN (n + 1) tbl = sweepN n (controlBlockTick tbl) from rfl, hs]
          congr 1
          simp only
          push_cast
          ring_nf
        · intro _
          simp only at hb
          by_cases hn1 : 1 ≤ n
          · have := hb hn1
            push_cast
            push_cast at this
            omega
          · have hn0 : n = 0 := by omega
            subst hn0
            push_cast
            simp only [MAX_INACTIVE_TIME] at hc ⊢
            omega

/-!
Claim theorems.
-/

/-- C1: along any sequence of consumer-side operations (heartbeat accepts,
data responses with arbitrary sequence numbers and payloads, standalone
request issuing, monitor sweep ticks) starting from a well-formed table,
every session present at an operation boundary satisfies
`minSeqNo ≤ maxSeqNo`, and one further operation never decreases the
`minSeqNo` of a session that persists across it. -/
theorem C1_minSeq_monotone_and_window_wf (tbl : Table) (hWF : WF tbl)
    (ops : List Op) (op : Op) (r : String) (cb cb' : MIDIControlBlock)
    (hcb : steps tbl ops r = some cb)
    (hcb' : step (steps tbl ops) op r = some cb') :
    cb.minSeqNo ≤ cb.maxSeqNo ∧ cb.minSeqNo ≤ cb'.minSeqNo ∧
    cb'.minSeqNo ≤ cb'.maxSeqNo := by
  have hwf1 := steps_WF ops tbl hWF
  have hwf2 := step_WF (steps tbl ops) op hwf1
  exact ⟨hwf1 r cb hcb, step_minSeq_mono _ op r cb cb' hcb hcb', hwf2 r cb' hcb'⟩

/-- Witness for C1: the empty table is well-formed; after accepting remote
`a` (window `[0,5)`) one sweep tick keeps the window and does not decrease
`minSeqNo`. -/
theorem C1_minSeq_monotone_and_window_wf_witness :
    steps tblEmpty [Op.accept "a"] "a" = some ⟨0, 5, 0⟩ ∧
    step (steps tblEmpty [Op.accept "a"]) Op.sweep "a" = some ⟨0, 5, 1⟩ ∧
    ((0 : Int) ≤ 5 ∧ (0 : Int) ≤ 0 ∧ (0 : Int) ≤ 5) :=
  ⟨by decide, by decide,
    C1_minSeq_monotone_and_window_wf tblEmpty
      (fun r cb h => Option.noConfusion h) [Op.accept "a"] Op.sweep "a"
      ⟨0, 5, 0⟩ ⟨0, 5, 1⟩ (by decide) (by decide)⟩

/-- C2: an accepted non-sentinel data response for a known remote with
`minSeq ≤ seq < maxSeq` advances `minSeqNo` by `advance = seq - minSeq + 1`,
delivers every payload unit to the MIDI output, issues exactly `advance` new
interests for sequence numbers `maxSeq, …, maxSeq + advance - 1`, and
advances `maxSeqNo` by `advance`. -/
theorem C2_accept_advances_window (tbl : Table) (r : String) (cb : MIDIControlBlock)
    (seq : Int) (payload : List Int) (h : tbl r = some cb)
    (h1 : cb.minSeqNo ≤ seq) (h2 : seq < cb.maxSeqNo)
    (hs : payload.take 3 ≠ [0, 0, 0]) :
    0 < seq - cb.minSeqNo + 1 ∧
    (onData tbl false r seq payload).table r =
      some ⟨cb.minSeqNo + (seq - cb.minSeqNo + 1),
            cb.maxSeqNo + (seq - cb.minSeqNo + 1), cb.inactiveTime⟩ ∧
    (onData tbl false r seq payload).delivered =
      (List.range (payload.length / 3)).map (fun j => unitAt payload j) ∧
    (onData tbl false r seq payload).requests =
      (List.range (seq - cb.minSeqNo + 1).toNat).map
        (fun (i : Nat) => cb.maxSeqNo + (i : Int)) ∧
    ((onData tbl false r seq payload).requests).length = (seq - cb.minSeqNo + 1).toNat := by
  have hs' := sentinelHit_eq_false payload hs
  rw [onData_accept_eq tbl r cb seq payload h h1 (le_of_lt h2) hs']
  refine ⟨by omega, ?_, rfl, rfl, by simp⟩
  have hmin : cb.minSeqNo + (seq - cb.minSeqNo + 1) = seq + 1 := by ring
  rw [hmin]
  show tset tbl r _ r = _
  rw [tset_same]

/-- Witness for C2: remote `a` with window `[0,5)` accepts `seq = 2` with a
single non-sentinel unit; `advance = 3`, the window becomes `[3,8)` and
interests 5, 6, 7 are issued. -/
theorem C2_accept_advances_window_witness :
    tblA "a" = some ⟨0, 5, 0⟩ ∧
    (onData tblA false "a" 2 [1, 2, 3]).table "a" = some ⟨3, 8, 0⟩ ∧
    (onData tblA false "a" 2 [1, 2, 3]).delivered = [[1, 2, 3]] ∧
    (onData tblA false "a" 2 [1, 2, 3]).requests = [5, 6, 7] := by
  have h := C2_accept_advances_window tblA "a" ⟨0, 5, 0⟩ 2 [1, 2, 3]
    (by decide) (by decide) (by decide) (by decide)
  refine ⟨by decide, ?_, ?_, ?_⟩
  · have := h.2.1
    simpa using this
  · have := h.2.2.1
    simpa using this
  · have := h.2.2.2.1
    simpa [unitAt] using this

/-- C3 counterexample: with window `[0,0)` (so `seq = 0` satisfies
`seq ≥ maxSeqNo`) a data response is NOT dropped: the guard in `onData` is
`maxSeqNo < seqNo`, so `seq = maxSeq` is accepted — the block changes, the
payload is delivered and a new interest is issued. -/
theorem C3_counterexample :
    tblB "a" = some ⟨0, 0, 0⟩ ∧
    ¬ ((⟨0, 0, 0⟩ : MIDIControlBlock).maxSeqNo > (0 : Int)) ∧
    (onData tblB false "a" 0 [1, 2, 3]).table "a" = some ⟨1, 1, 0⟩ ∧
    (onData tblB false "a" 0 [1, 2, 3]).delivered = [[1, 2, 3]] ∧
    (onData tblB false "a" 0 [1, 2, 3]).requests = [0] := by decide

/-- C3 (amended): a response with `seq` strictly greater than `maxSeqNo` is
dropped by `onData`: the table is unchanged, nothing is delivered, and no
interest is issued.  (A response with `seq = maxSeqNo` — which a correct
window never produces — is accepted like any in-window response.) -/
theorem C3_amended_drop_above_window (tbl : Table) (r : String)
    (cb : MIDIControlBlock) (seq : Int) (payload : List Int)
    (h : tbl r = some cb) (h2 : cb.maxSeqNo < seq) :
    onData tbl false r seq payload = ⟨tbl, [], []⟩ := by
  by_cases g1 : cb.minSeqNo > seq
  · simp [onData, h, g1]
  · simp [onData, h, g1, h2]

/-- Witness for C3 (amended): remote `a` has window `[0,5)`; a response with
`seq = 9 > 5` is a complete no-op. -/
theorem C3_amended_drop_above_window_witness :
    onData tblA false "a" 9 [1, 2, 3] = ⟨tblA, [], []⟩ :=
  C3_amended_drop_above_window tblA "a" ⟨0, 5, 0⟩ 9 [1, 2, 3] (by decide) (by decide)

/-- C4: an in-window accepted response whose payload is exactly the all-zero
termination sentinel `{0,0,0}` removes the remote's session from the table
and issues no interests during that call. -/
theorem C4_sentinel_teardown (tbl : Table) (r : String) (cb : MIDIControlBlock)
    (seq : Int) (h : tbl r = some cb) (h1 : cb.minSeqNo ≤ seq)
    (h2 : seq ≤ cb.maxSeqNo) :
    (onData tbl false r seq [0, 0, 0]).table r = none ∧
    (onData tbl false r seq [0, 0, 0]).requests = [] := by
  rw [onData_sentinel_eq tbl r cb seq [0, 0, 0] h h1 h2 (by decide)]
  exact ⟨terase_same tbl r, rfl⟩

/-- Witness for C4: remote `a` with window `[0,5)` receives the sentinel at
`seq = 0`; the session disappears and no interest is issued. -/
theorem C4_sentinel_teardown_witness :
    (onData tblA false "a" 0 [0, 0, 0]).table "a" = none ∧
    (onData tblA false "a" 0 [0, 0, 0]).requests = [] :=
  C4_sentinel_teardown tblA "a" ⟨0, 5, 0⟩ 0 (by decide) (by decide) (by decide)

/-- C10: the sentinel test reads only the first three payload bytes.  In an
accepted batched response whose first unit is not all-zero, an all-zero unit
at any later position `j ≥ 1` does not remove the session — the window still
advances — and new interests are still issued. -/
theorem C10_sentinel_first_unit_only (tbl : Table) (r : String)
    (cb : MIDIControlBlock) (seq : Int) (payload : List Int) (j : Nat)
    (h : tbl r = some cb) (h1 : cb.minSeqNo ≤ seq) (h2 : seq ≤ cb.maxSeqNo)
    (hfirst : payload.take 3 ≠ [0, 0, 0]) (hj : 1 ≤ j)
    (hzero : unitAt payload j = [0, 0, 0]) :
    (onData tbl false r seq payload).table r =
      some ⟨seq + 1, cb.maxSeqNo + (seq - cb.minSeqNo + 1), cb.inactiveTime⟩ ∧
    (onData tbl false r seq payload).requests ≠ [] := by
  rw [onData_accept_eq tbl r cb seq payload h h1 h2 (sentinelHit_eq_false payload hfirst)]
  constructor
  · show tset tbl r _ r = _
    rw [tset_same]
  · show List.map _ _ ≠ []
    simp only [ne_eq, List.map_eq_nil_iff, List.range_eq_nil]
    omega

/-- Witness for C10: remote `a`, window `[0,5)`, batched payload
`[1,2,3,0,0,0]` whose second unit is all-zero: the session survives with
window `[1,6)` and interest 5 is issued. -/
theorem C10_sentinel_first_unit_only_witness :
    unitAt [1, 2, 3, 0, 0, 0] 1 = [0, 0, 0] ∧
    (onData tblA false "a" 0 [1, 2, 3, 0, 0, 0]).table "a" = some ⟨1, 6, 0⟩ ∧
    (onData tblA false "a" 0 [1, 2, 3, 0, 0, 0]).requests ≠ [] := by
  have h := C10_sentinel_first_unit_only tblA "a" ⟨0, 5, 0⟩ 0 [1, 2, 3, 0, 0, 0] 1
    (by decide) (by decide) (by decide) (by decide) (by decide) (by decide)
  exact ⟨by decide, by simpa using h.1, h.2⟩

/-- C7: a monitor tick increments every present session's `inactiveTime` and
removes exactly the sessions whose incremented counter exceeds
`MAX_INACTIVE_TIME`; consequently a session (with a non-negative counter, as
in every reachable state) that sees `MAX_INACTIVE_TIME + 1 = 6` consecutive
ticks with no intervening activity is absent afterwards. -/
theorem C7_sweep_reclaims_sessions (tbl : Table) (r : String)
    (cb : MIDIControlBlock) (h : tbl r = some cb) (h0 : 0 ≤ cb.inactiveTime) :
    (MAX_INACTIVE_TIME < cb.inactiveTime + 1 → controlBlockTick tbl r = none) ∧
    (cb.inactiveTime + 1 ≤ MAX_INACTIVE_TIME →
      controlBlockTick tbl r = some { cb with inactiveTime := cb.inactiveTime + 1 }) ∧
    sweepN 6 tbl r = none := by
  refine ⟨?_, ?_, ?_⟩
  · intro hgt
    simp [controlBlockTick, h, hgt]
  · intro hle
    have : ¬ (cb.inactiveTime + 1 > MAX_INACTIVE_TIME) := not_lt.mpr hle
    simp [controlBlockTick, h, this]
  · rcases sweepN_lookup r 6 tbl cb h with hn | ⟨_, hb⟩
    · exact hn
    · exfalso
      have := hb (by norm_num)
      simp only [MAX_INACTIVE_TIME] at this
      omega

/-- Witness for C7: remote `a` with counter 0 survives the first tick with
counter 1, and is gone after 6 ticks. -/
theorem C7_sweep_reclaims_sessions_witness :
    (MAX_INACTIVE_TIME < (0 : Int) + 1 → controlBlockTick tblA "a" = none) ∧
    ((0 : Int) + 1 ≤ MAX_INACTIVE_TIME →
      controlBlockTick tblA "a" = some ⟨0, 5, 0 + 1⟩) ∧
    sweepN 6 tblA "a" = none :=
  C7_sweep_reclaims_sessions tblA "a" ⟨0, 5, 0⟩ (by decide) (by decide)

/-- C8 counterexample: remote `a` has `inactiveTime = 3`; an accepted data
response (`seq = 0`, payload `[1,2,3]`) leaves `inactiveTime` at 3 — `onData`
never resets the inactivity counter, so a received data response does not
reset it to 0 as claimed. -/
theorem C8_counterexample :
    tblC "a" = some ⟨0, 5, 3⟩ ∧
    (onData tblC false "a" 0 [1, 2, 3]).table "a" = some ⟨1, 6, 3⟩ ∧
    (⟨1, 6, 3⟩ : MIDIControlBlock).inactiveTime ≠ 0 := by decide

/-- C8 (amended): the inactivity counter of an existing session is reset to
0 by a received heartbeat interest (`onInterest`), while any received data
callback (`onData`, heartbeat-named or not) leaves the session's
`inactiveTime` unchanged whenever the session is still present afterwards. -/
theorem C8_amended_reset_on_heartbeat_interest (tbl : Table) (r : String)
    (cb : MIDIControlBlock) (h : tbl r = some cb) :
    (onInterest tbl true r).1 r = some { cb with inactiveTime := 0 } ∧
    ∀ (hb : Bool) (seq : Int) (payload : List Int) (cb' : MIDIControlBlock),
      (onData tbl hb r seq payload).table r = some cb' →
      cb'.inactiveTime = cb.inactiveTime := by
  constructor
  · rw [onInterest_known tbl r cb h]
    exact tset_same _ _ _
  · intro hb seq payload cb' h2
    rcases onData_cases tbl hb r seq payload with heq | ⟨cb0, hcb0, _, _, herase | hset⟩
    · rw [heq, h] at h2
      cases h2
      rfl
    · rw [herase, terase_same] at h2
      cases h2
    · rw [hset, tset_same] at h2
      rw [h] at hcb0
      cases hcb0
      cases h2
      rfl

/-- Witness for C8 (amended): on `tblC` (counter 3), a heartbeat interest
resets the counter to 0, while the accepted data response keeps it at 3. -/
theorem C8_amended_reset_on_heartbeat_interest_witness :
    (onInterest tblC true "a").1 "a" = some ⟨0, 5, 0⟩ ∧
    (onData tblC false "a" 0 [1, 2, 3]).table "a" = some ⟨1, 6, 3⟩ ∧
    (⟨1, 6, 3⟩ : MIDIControlBlock).inactiveTime =
      (⟨0, 5, 3⟩ : MIDIControlBlock).inactiveTime := by
  have h := C8_amended_reset_on_heartbeat_interest tblC "a" ⟨0, 5, 3⟩ (by decide)
  exact ⟨h.1, by decide, h.2 false 0 [1, 2, 3] ⟨1, 6, 3⟩ (by decide)⟩

/-- C5: one drain step (`replyInterest`) emits a response only when both the
pending-interest queue and the outbound queue were non-empty at call time
(and the session was connected, so the clearing step did not run); when it
emits, exactly one pending interest is dequeued (the front one, which the
response is addressed to), at most 10 (`MAX_BATCH`) outbound units are
dequeued, and the payload is the concatenation of the dequeued units. -/
theorem C5_drain_emits_batched_response (st : ControllerState) (nm : Int)
    (payload : List Int) (h : (replyInterest st).2 = some (nm, payload)) :
    st.connGood = true ∧
    st.inputQueue ≠ [] ∧ st.interestQueue ≠ [] ∧
    st.interestQueue.head? = some nm ∧
    (replyInterest st).1.interestQueue = st.interestQueue.tail ∧
    (replyInterest st).1.inputQueue = st.inputQueue.drop 10 ∧
    payload = (st.inputQueue.take 10).flatten ∧
    (st.inputQueue.take 10).length ≤ 10 := by
  by_cases hc : st.connGood
  · rcases hq : st.interestQueue with _ | ⟨nm0, names⟩
    · exfalso
      simp [replyInterest, hc, hq] at h
    · rcases hi : st.inputQueue with _ | ⟨m, ms⟩
      · exfalso
        simp [replyInterest, hc, hq, hi] at h
      · have hr : replyInterest st =
            ({ st with inputQueue := (m :: ms).drop 10, interestQueue := names },
              some (nm0, ((m :: ms).take 10).flatten)) := by
          simp [replyInterest, hc, hq, hi]
        rw [hr] at h
        simp only [Option.some.injEq, Prod.mk.injEq] at h
        obtain ⟨hnm, hpl⟩ := h
        subst hnm
        refine ⟨hc, by simp, by simp, by simp, ?_, ?_, ?_, ?_⟩
        · rw [hr]; rfl
        · rw [hr]
        · exact hpl.symm
        · simp [List.length_take]
  · exfalso
    have hc' : st.connGood = false := by simpa using hc
    simp [replyInterest, hc'] at h

/-- Witness for C5 at a connected state with two queued units and two
pending interests: the front interest (7) is answered with both units
concatenated, the other interest stays queued, and the outbound queue is
drained. -/
theorem C5_drain_emits_batched_response_witness :
    stOK.connGood = true ∧
    stOK.inputQueue ≠ [] ∧ stOK.interestQueue ≠ [] ∧
    stOK.interestQueue.head? = some 7 ∧
    (replyInterest stOK).1.interestQueue = stOK.interestQueue.tail ∧
    (replyInterest stOK).1.inputQueue = stOK.inputQueue.drop 10 ∧
    [1, 2, 3, 4, 5, 6] = (stOK.inputQueue.take 10).flatten ∧
    (stOK.inputQueue.take 10).length ≤ 10 :=
  C5_drain_emits_batched_response stOK 7 [1, 2, 3, 4, 5, 6] (by decide)

/-- C6 counterexample: at `stHB` (connected, `hbCount` about to reach 4,
one unit and one interest queued), the heartbeat step flips `connGood` to
`false` but does NOT empty the backlog queues — they still hold their
elements right after the step. -/
theorem C6_counterexample :
    (sendHeartbeatStep stHB).connGood = false ∧
    (sendHeartbeatStep stHB).inputQueue = [[1, 2, 3]] ∧
    (sendHeartbeatStep stHB).interestQueue = [0] ∧
    ([[1, 2, 3]] : List (List Int)) ≠ [] := by decide

/-- C6 (amended): when the incremented heartbeat counter exceeds
`MAX_HEARTBEAT_PROBE` while connected, the heartbeat step flips `connGood`
to `false` but leaves both backlog queues untouched; the queues are emptied
at the next drain step (`replyInterest`), which clears them (emitting
nothing) whenever the session is disconnected. -/
theorem C6_amended_disconnect_then_drain_clears (st : ControllerState)
    (hc : st.connGood = true) (hb : MAX_HEARTBEAT_PROBE < st.hbCount + 1) :
    (sendHeartbeatStep st).connGood = false ∧
    (sendHeartbeatStep st).inputQueue = st.inputQueue ∧
    (sendHeartbeatStep st).interestQueue = st.interestQueue ∧
    (replyInterest (sendHeartbeatStep st)).1.inputQueue = [] ∧
    (replyInterest (sendHeartbeatStep st)).1.interestQueue = [] ∧
    (replyInterest (sendHeartbeatStep st)).2 = none := by
  have hs : sendHeartbeatStep st =
      { st with connGood := false, hbCount := st.hbCount + 1,
                heartbeatNonce := st.heartbeatNonce + 1 } := by
    simp only [sendHeartbeatStep]
    rw [if_pos ⟨hb, hc⟩]
  rw [hs]
  refine ⟨rfl, rfl, rfl, ?_, ?_, ?_⟩ <;> simp [replyInterest]

/-- Witness for C6 (amended) at `stHB`: the step disconnects without touching
the queues, and the following drain step clears both and emits nothing. -/
theorem C6_amended_disconnect_then_drain_clears_witness :
    (sendHeartbeatStep stHB).connGood = false ∧
    (sendHeartbeatStep stHB).inputQueue = stHB.inputQueue ∧
    (sendHeartbeatStep stHB).interestQueue = stHB.interestQueue ∧
    (replyInterest (sendHeartbeatStep stHB)).1.inputQueue = [] ∧
    (replyInterest (sendHeartbeatStep stHB)).1.interestQueue = [] ∧
    (replyInterest (sendHeartbeatStep stHB)).2 = none :=
  C6_amended_disconnect_then_drain_clears stHB (by decide) (by decide)

/-- C9 counterexample: at the disconnected state `stDC`, `addInput` still
appends the item to the outbound queue — the queue is `[[7,8,9]]` right
after the call, not cleared. -/
theorem C9_counterexample :
    stDC.connGood = false ∧
    (addInput stDC [7, 8, 9]).inputQueue = [[7, 8, 9]] ∧
    ([[7, 8, 9]] : List (List Int)) ≠ [] := by decide

/-- C9 (amended): `addInput` appends the item to the outbound queue
unconditionally, connected or not; when the session is not connected the
queue is cleared at the next drain step (`replyInterest`), which empties
both backlogs and emits nothing, so items enqueued while disconnected are
discarded there rather than by `addInput` itself. -/
theorem C9_amended_append_then_drain_discards (st : ControllerState)
    (msg : List Int) :
    (addInput st msg).inputQueue = st.inputQueue ++ [msg] ∧
    (st.connGood = false →
      (replyInterest (addInput st msg)).1.inputQueue = [] ∧
      (replyInterest (addInput st msg)).1.interestQueue = [] ∧
      (replyInterest (addInput st msg)).2 = none) := by
  refine ⟨rfl, fun hc => ?_⟩
  have hc' : (addInput st msg).connGood = false := hc
  refine ⟨?_, ?_, ?_⟩ <;> simp [replyInterest, hc']

/-- Witness for C9 (amended) at `stDC`: the item is appended by `addInput`,
then the next drain step discards it. -/
theorem C9_amended_append_then_drain_discards_witness :
    (addInput stDC [7, 8, 9]).inputQueue = stDC.inputQueue ++ [[7, 8, 9]] ∧
    (replyInterest (addInput stDC [7, 8, 9])).1.inputQueue = [] ∧
    (replyInterest (addInput stDC [7, 8, 9])).1.interestQueue = [] ∧
    (replyInterest (addInput stDC [7, 8, 9])).2 = none :=
  ⟨(C9_amended_append_then_drain_discards stDC [7, 8, 9]).1,
   (C9_amended_append_then_drain_discards stDC [7, 8, 9]).2 rfl⟩

end MidiNdn
